import Mathlib

/-! MCP filesystem server and client

A shallow embedding of `src/server.js` (the `tools/list` and `tools/call`
handlers of `FilesystemMCPServer` together with its six tool methods) and of
`src/client.js` (`FilesystemMCPClient`: connection flag, the six facade
methods and `processPrompt`).

Conventions of the embedding.

* JavaScript strings are Lean `String`s (sequences of Unicode scalar values).
* A thrown `Error` is a `JsError` carrying its `message`; an `async` function
  that may reject returns an `Except JsError _`.
* The Node `fs/promises` module is not part of the repository: it is the
  parameter `FsCapability σ`, whose operations take the world `σ` and return an
  outcome together with the next world.
* The SDK call `client.request` is the parameter `respond`, which answers a
  request given the requests already sent; the list of requests sent is the
  observable trace of the transport.
-/

set_option autoImplicit false

namespace McpFs

/-! ## Values shared by server and client -/

/-- A thrown JavaScript `Error`, known by its `message`. -/
structure JsError where
  message : String
deriving DecidableEq, Repr

/-- The argument values a tool call can carry. A value that is neither
`undefined` nor a string is known by the outcome of converting it to a string,
which is all the code observes of it. -/
inductive JsValue where
  | undefined
  | string (s : String)
  | other (rendered : Except JsError String)

/-- Conversion performed by a template literal on an interpolated value. -/
def JsValue.toStr : JsValue → Except JsError String
  | .undefined => .ok "undefined"
  | .string s => .ok s
  | .other r => r

/-- One element of a result's `content` array. -/
structure ContentBlock where
  type : String
  text : String
deriving DecidableEq, Repr

/-- The object returned by a tool call: `{ content: [...] }`. -/
structure CallToolResult where
  content : List ContentBlock
deriving DecidableEq, Repr

/-- The object literal `{ content: [{ type: "text", text }] }`. -/
def textResult (text : String) : CallToolResult :=
  { content := [{ type := "text", text := text }] }

/-- An arguments object: field name paired with value. -/
abbrev JsObject := List (String × JsValue)

/-- Property read `obj.field` on a plain object: `undefined` when absent. -/
def JsObject.get (obj : JsObject) (field : String) : JsValue :=
  (obj.lookup field).getD .undefined

/-! ## Server: tool catalog -/

/-- One property of an input schema. -/
structure SchemaProperty where
  name : String
  type : String
  description : String
deriving DecidableEq, Repr

/-- The `inputSchema` of a tool descriptor. -/
structure InputSchema where
  type : String
  properties : List SchemaProperty
  required : List String
deriving DecidableEq, Repr

/-- A tool descriptor of the catalog. -/
structure ToolDescriptor where
  name : String
  description : String
  inputSchema : InputSchema
deriving DecidableEq, Repr

namespace FilesystemMCPServer

/-- The array returned under `tools` by the `ListToolsRequestSchema` handler. -/
def tools : List ToolDescriptor :=
  [ { name := "create_file"
      description := "Create a new file with specified content"
      inputSchema :=
        { type := "object"
          properties :=
            [ ⟨"filepath", "string", "Path where the file should be created"⟩
            , ⟨"content", "string", "Content to write to the file"⟩ ]
          required := ["filepath", "content"] } }
  , { name := "read_file"
      description := "Read the contents of a file"
      inputSchema :=
        { type := "object"
          properties := [ ⟨"filepath", "string", "Path of the file to read"⟩ ]
          required := ["filepath"] } }
  , { name := "edit_file"
      description := "Edit an existing file by replacing its content"
      inputSchema :=
        { type := "object"
          properties :=
            [ ⟨"filepath", "string", "Path of the file to edit"⟩
            , ⟨"content", "string", "New content for the file"⟩ ]
          required := ["filepath", "content"] } }
  , { name := "delete_file"
      description := "Delete a file"
      inputSchema :=
        { type := "object"
          properties := [ ⟨"filepath", "string", "Path of the file to delete"⟩ ]
          required := ["filepath"] } }
  , { name := "list_files"
      description := "List all files in a directory"
      inputSchema :=
        { type := "object"
          properties := [ ⟨"dirpath", "string", "Path of the directory to list"⟩ ]
          required := ["dirpath"] } }
  , { name := "create_directory"
      description := "Create a new directory"
      inputSchema :=
        { type := "object"
          properties :=
            [ ⟨"dirpath", "string", "Path where the directory should be created"⟩ ]
          required := ["dirpath"] } } ]

/-- The `tools/list` handler: it ignores its request. -/
def handleListTools {ρ : Type} (_request : ρ) : List ToolDescriptor :=
  tools

end FilesystemMCPServer

/-! ## Server: filesystem capability and tool methods -/

/-- A directory entry as returned by `readdir` with `withFileTypes`. -/
structure Dirent where
  name : String
  isDirectory : Bool
deriving DecidableEq, Repr

/-- The five `fs/promises` functions the server calls, over a world `σ`.
Each returns its outcome and the world after the call. -/
structure FsCapability (σ : Type) where
  writeFile : JsValue → JsValue → String → σ → Except JsError Unit × σ
  readFile : JsValue → String → σ → Except JsError String × σ
  unlink : JsValue → σ → Except JsError Unit × σ
  readdir : JsValue → σ → Except JsError (List Dirent) × σ
  mkdir : JsValue → σ → Except JsError Unit × σ

/-- The `params` of a `tools/call` request; `arguments` may be absent. -/
structure CallToolRequest where
  name : String
  arguments : Option JsObject

namespace FilesystemMCPServer

variable {σ : Type}

/-- Body of `createFile(filepath, content)`. -/
def createFile (fs : FsCapability σ) (filepath content : JsValue) (w : σ) :
    Except JsError CallToolResult × σ :=
  match fs.writeFile filepath content "utf8" w with
  | (.error e, w1) => (.error e, w1)
  | (.ok _, w1) =>
    match filepath.toStr with
    | .error e => (.error e, w1)
    | .ok p => (.ok (textResult ("File created successfully at: " ++ p)), w1)

/-- Body of `readFile(filepath)`. -/
def readFile (fs : FsCapability σ) (filepath : JsValue) (w : σ) :
    Except JsError CallToolResult × σ :=
  match fs.readFile filepath "utf8" w with
  | (.error e, w1) => (.error e, w1)
  | (.ok content, w1) =>
    match filepath.toStr with
    | .error e => (.error e, w1)
    | .ok p => (.ok (textResult ("Content of " ++ p ++ ":\n\n" ++ content)), w1)

/-- Body of `editFile(filepath, content)`. -/
def editFile (fs : FsCapability σ) (filepath content : JsValue) (w : σ) :
    Except JsError CallToolResult × σ :=
  match fs.writeFile filepath content "utf8" w with
  | (.error e, w1) => (.error e, w1)
  | (.ok _, w1) =>
    match filepath.toStr with
    | .error e => (.error e, w1)
    | .ok p => (.ok (textResult ("File edited successfully: " ++ p)), w1)

/-- Body of `deleteFile(filepath)`. -/
def deleteFile (fs : FsCapability σ) (filepath : JsValue) (w : σ) :
    Except JsError CallToolResult × σ :=
  match fs.unlink filepath w with
  | (.error e, w1) => (.error e, w1)
  | (.ok _, w1) =>
    match filepath.toStr with
    | .error e => (.error e, w1)
    | .ok p => (.ok (textResult ("File deleted successfully: " ++ p)), w1)

/-- The arrow function mapped over the entries in `listFiles`. -/
def entryLine (file : Dirent) : String :=
  (if file.isDirectory then "[DIR]" else "[FILE]") ++ " " ++ file.name

/-- The value `fileList`: the mapped entries joined by a newline. -/
def fileList (files : List Dirent) : String :=
  "\n".intercalate (files.map entryLine)

/-- Body of `listFiles(dirpath)`. -/
def listFiles (fs : FsCapability σ) (dirpath : JsValue) (w : σ) :
    Except JsError CallToolResult × σ :=
  match fs.readdir dirpath w with
  | (.error e, w1) => (.error e, w1)
  | (.ok files, w1) =>
    match dirpath.toStr with
    | .error e => (.error e, w1)
    | .ok d => (.ok (textResult ("Contents of " ++ d ++ ":\n\n" ++ fileList files)), w1)

/-- Body of `createDirectory(dirpath)`. -/
def createDirectory (fs : FsCapability σ) (dirpath : JsValue) (w : σ) :
    Except JsError CallToolResult × σ :=
  match fs.mkdir dirpath w with
  | (.error e, w1) => (.error e, w1)
  | (.ok _, w1) =>
    match dirpath.toStr with
    | .error e => (.error e, w1)
    | .ok d => (.ok (textResult ("Directory created successfully: " ++ d)), w1)

/-- The `TypeError` thrown when `field` is read off `undefined`. -/
def undefinedProperty (field : String) : JsError :=
  ⟨"Cannot read properties of undefined (reading \x27" ++ field ++ "\x27)"⟩

/-- Property read `args.field` where `args` may be `undefined`: reading a
property of `undefined` throws a `TypeError`. -/
def getArg (args : Option JsObject) (field : String) : Except JsError JsValue :=
  match args with
  | none => .error (undefinedProperty field)
  | some obj => .ok (obj.get field)

/-- The `switch (name)` inside the `try` block of the `tools/call` handler. -/
def callTool (fs : FsCapability σ) (request : CallToolRequest) (w : σ) :
    Except JsError CallToolResult × σ :=
  let name := request.name
  let args := request.arguments
  if name = "create_file" then
    match getArg args "filepath" with
    | .error e => (.error e, w)
    | .ok filepath =>
      match getArg args "content" with
      | .error e => (.error e, w)
      | .ok content => createFile fs filepath content w
  else if name = "read_file" then
    match getArg args "filepath" with
    | .error e => (.error e, w)
    | .ok filepath => readFile fs filepath w
  else if name = "edit_file" then
    match getArg args "filepath" with
    | .error e => (.error e, w)
    | .ok filepath =>
      match getArg args "content" with
      | .error e => (.error e, w)
      | .ok content => editFile fs filepath content w
  else if name = "delete_file" then
    match getArg args "filepath" with
    | .error e => (.error e, w)
    | .ok filepath => deleteFile fs filepath w
  else if name = "list_files" then
    match getArg args "dirpath" with
    | .error e => (.error e, w)
    | .ok dirpath => listFiles fs dirpath w
  else if name = "create_directory" then
    match getArg args "dirpath" with
    | .error e => (.error e, w)
    | .ok dirpath => createDirectory fs dirpath w
  else
    (.error ⟨"Unknown tool: " ++ name⟩, w)

/-- The `tools/call` handler: the `switch` wrapped in `try`/`catch`. The
outcome type still allows a rejection; that none occurs is a theorem. -/
def handleCallTool (fs : FsCapability σ) (request : CallToolRequest) (w : σ) :
    Except JsError CallToolResult × σ :=
  match callTool fs request w with
  | (.ok result, w1) => (.ok result, w1)
  | (.error error, w1) => (.ok (textResult ("Error: " ++ error.message)), w1)

end FilesystemMCPServer

/-! ## An in-memory filesystem

A stand-in for the Node `fs/promises` module: a finite map from paths to
nodes. It instantiates `FsCapability` wherever a concrete filesystem is
needed. -/

/-- What a path of the in-memory filesystem holds. -/
inductive MemNode where
  | file (content : String)
  | directory
deriving DecidableEq, Repr

/-- The in-memory filesystem: paths paired with nodes, first binding wins. -/
abbrev MemFs := List (String × MemNode)

/-- Bind `path` to `node`, replacing an earlier binding. -/
def MemFs.put (m : MemFs) (path : String) (node : MemNode) : MemFs :=
  (path, node) :: m.filter (fun e => e.1 != path)

/-- Remove the binding of `path`. -/
def MemFs.remove (m : MemFs) (path : String) : MemFs :=
  m.filter (fun e => e.1 != path)

/-- The entry name of `path` inside directory `dir`, when `path` is a direct
child of `dir`. -/
def MemFs.childName (dir path : String) : Option String :=
  match (dir ++ "/").toList.isPrefixOf? path.toList with
  | some rest => if rest.isEmpty || rest.contains '/' then none else some (String.mk rest)
  | none => none

/-- The entries of directory `dir`, in map order. -/
def MemFs.entries (m : MemFs) (dir : String) : List Dirent :=
  m.filterMap (fun e =>
    match MemFs.childName dir e.1 with
    | some name => some { name := name, isDirectory := e.2 == MemNode.directory }
    | none => none)

/-- Error thrown for a path argument that is not a string. -/
def MemFs.invalidPath : JsError :=
  ⟨"The \"path\" argument must be of type string or an instance of Buffer or URL."⟩

/-- Error thrown for a data argument that is not a string. -/
def MemFs.invalidData : JsError :=
  ⟨"The \"data\" argument must be of type string or an instance of Buffer, TypedArray, or DataView."⟩

/-- The in-memory filesystem as a capability. Writing replaces or creates a
file and fails on a directory; reading, unlinking and listing fail on a path
that is absent or of the wrong kind. -/
def memFs : FsCapability MemFs where
  writeFile := fun path data _encoding m =>
    match path, data with
    | .string p, .string c =>
      match m.lookup p with
      | some .directory =>
        (.error ⟨"EISDIR: illegal operation on a directory, open \x27" ++ p ++ "\x27"⟩, m)
      | _ => (.ok (), m.put p (.file c))
    | .string _, _ => (.error MemFs.invalidData, m)
    | _, _ => (.error MemFs.invalidPath, m)
  readFile := fun path _encoding m =>
    match path with
    | .string p =>
      match m.lookup p with
      | some (.file c) => (.ok c, m)
      | some .directory => (.error ⟨"EISDIR: illegal operation on a directory, read"⟩, m)
      | none =>
        (.error ⟨"ENOENT: no such file or directory, open \x27" ++ p ++ "\x27"⟩, m)
    | _ => (.error MemFs.invalidPath, m)
  unlink := fun path m =>
    match path with
    | .string p =>
      match m.lookup p with
      | some (.file _) => (.ok (), m.remove p)
      | some .directory =>
        (.error ⟨"EPERM: operation not permitted, unlink \x27" ++ p ++ "\x27"⟩, m)
      | none =>
        (.error ⟨"ENOENT: no such file or directory, unlink \x27" ++ p ++ "\x27"⟩, m)
    | _ => (.error MemFs.invalidPath, m)
  readdir := fun path m =>
    match path with
    | .string p =>
      match m.lookup p with
      | some .directory => (.ok (m.entries p), m)
      | some (.file _) =>
        (.error ⟨"ENOTDIR: not a directory, scandir \x27" ++ p ++ "\x27"⟩, m)
      | none =>
        (.error ⟨"ENOENT: no such file or directory, scandir \x27" ++ p ++ "\x27"⟩, m)
    | _ => (.error MemFs.invalidPath, m)
  mkdir := fun path m =>
    match path with
    | .string p =>
      match m.lookup p with
      | some (.file _) =>
        (.error ⟨"EEXIST: file already exists, mkdir \x27" ++ p ++ "\x27"⟩, m)
      | some .directory => (.ok (), m)
      | none => (.ok (), m.put p .directory)
    | _ => (.error MemFs.invalidPath, m)

/-! ## Client: connection state and facade -/

/-- The request object handed to `client.request`. -/
structure ToolCallRequest where
  method : String
  name : String
  arguments : JsObject

/-- The SDK `Client` object, known by its construction parameters. -/
structure SdkClient where
  name : String
  version : String
deriving DecidableEq, Repr

/-- The SDK `StdioClientTransport` object, known by its parameters. -/
structure StdioClientTransport where
  command : String
  args : List String
deriving DecidableEq, Repr

/-- The fields of a `FilesystemMCPClient` instance; `none` is `null`. -/
structure FilesystemMCPClient where
  client : Option SdkClient
  transport : Option StdioClientTransport
  isConnected : Bool
deriving DecidableEq, Repr

/-- The peer as seen through `client.request`: its answer to a request, given
the requests sent before it. -/
abbrev Respond := List ToolCallRequest → ToolCallRequest → Except JsError CallToolResult

/-- Outcome of a client method: what it returns or throws, the instance after
the call, and the requests sent on the transport so far. -/
abbrev ClientOutcome := Except JsError CallToolResult × FilesystemMCPClient × List ToolCallRequest

namespace FilesystemMCPClient

/-- The constructor. -/
def new : FilesystemMCPClient :=
  { client := none, transport := none, isConnected := false }

/-- Method `connect()`. The outcomes of `spawn` and of the SDK handshake
`client.connect(transport)` are inputs. Returns the boolean result. -/
def connect (spawn handshake : Except JsError Unit) (self : FilesystemMCPClient) :
    Bool × FilesystemMCPClient :=
  match spawn with
  | .error _ => (false, self)
  | .ok _ =>
    let self1 : FilesystemMCPClient :=
      { self with
        transport := some { command := "node", args := ["src/server.js"] }
        client := some { name := "filesystem-client", version := "1.0.0" } }
    match handshake with
    | .error _ => (false, self1)
    | .ok _ => (true, { self1 with isConnected := true })

/-- Method `disconnect()`. The outcome of the SDK `client.close()` is an
input. -/
def disconnect (close : Except JsError Unit) (self : FilesystemMCPClient) :
    Except JsError Unit × FilesystemMCPClient :=
  if self.client.isSome && self.isConnected then
    match close with
    | .error e => (.error e, self)
    | .ok _ => (.ok (), { self with isConnected := false })
  else
    (.ok (), self)

/-- The call `this.client.request(req, {})`: reading `request` off a `null`
client throws; otherwise the request goes out and the peer answers. -/
def request (respond : Respond) (req : ToolCallRequest) (self : FilesystemMCPClient)
    (sent : List ToolCallRequest) : ClientOutcome :=
  match self.client with
  | none => (.error ⟨"Cannot read properties of null (reading \x27request\x27)"⟩, self, sent)
  | some _ => (respond sent req, self, sent ++ [req])

/-- The error thrown by every facade method on a client that is not connected. -/
def notConnected : JsError :=
  ⟨"Client not connected"⟩

/-- Facade method `createFile(filepath, content)`. -/
def createFile (respond : Respond) (filepath content : JsValue) (self : FilesystemMCPClient)
    (sent : List ToolCallRequest) : ClientOutcome :=
  if !self.isConnected then (.error notConnected, self, sent)
  else
    request respond
      { method := "tools/call", name := "create_file"
        arguments := [("filepath", filepath), ("content", content)] } self sent

/-- Facade method `readFile(filepath)`. -/
def readFile (respond : Respond) (filepath : JsValue) (self : FilesystemMCPClient)
    (sent : List ToolCallRequest) : ClientOutcome :=
  if !self.isConnected then (.error notConnected, self, sent)
  else
    request respond
      { method := "tools/call", name := "read_file"
        arguments := [("filepath", filepath)] } self sent

/-- Facade method `editFile(filepath, content)`. -/
def editFile (respond : Respond) (filepath content : JsValue) (self : FilesystemMCPClient)
    (sent : List ToolCallRequest) : ClientOutcome :=
  if !self.isConnected then (.error notConnected, self, sent)
  else
    request respond
      { method := "tools/call", name := "edit_file"
        arguments := [("filepath", filepath), ("content", content)] } self sent

/-- Facade method `deleteFile(filepath)`. -/
def deleteFile (respond : Respond) (filepath : JsValue) (self : FilesystemMCPClient)
    (sent : List ToolCallRequest) : ClientOutcome :=
  if !self.isConnected then (.error notConnected, self, sent)
  else
    request respond
      { method := "tools/call", name := "delete_file"
        arguments := [("filepath", filepath)] } self sent

/-- Facade method `listFiles(dirpath)`. -/
def listFiles (respond : Respond) (dirpath : JsValue) (self : FilesystemMCPClient)
    (sent : List ToolCallRequest) : ClientOutcome :=
  if !self.isConnected then (.error notConnected, self, sent)
  else
    request respond
      { method := "tools/call", name := "list_files"
        arguments := [("dirpath", dirpath)] } self sent

/-- Facade method `createDirectory(dirpath)`. -/
def createDirectory (respond : Respond) (dirpath : JsValue) (self : FilesystemMCPClient)
    (sent : List ToolCallRequest) : ClientOutcome :=
  if !self.isConnected then (.error notConnected, self, sent)
  else
    request respond
      { method := "tools/call", name := "create_directory"
        arguments := [("dirpath", dirpath)] } self sent

end FilesystemMCPClient

/-! ## Client: the string and regular-expression operations of `processPrompt`

The prompt is tested with `toLowerCase().includes(keyword)` and with
regular-expression literals under flag `i`, built from literal characters and
the capturing group `(.+)`. Every literal character and every keyword
character is an ASCII letter or a space, so case folding is modelled on the
ASCII letters: no character outside ASCII folds to one of these letters in
the matcher, and none lower-cases to a text that completes a keyword. -/

/-- The method `toLowerCase()`, on ASCII letters. -/
def toLowerCase (s : String) : String :=
  String.mk (s.toList.map Char.toLower)

/-- Whether `keyword` occurs in `s` at some position. -/
def includesChars (keyword : List Char) : List Char → Bool
  | [] => keyword.isPrefixOf []
  | c :: cs => keyword.isPrefixOf (c :: cs) || includesChars keyword cs

/-- The method `includes(keyword)`. -/
def includes (s keyword : String) : Bool :=
  includesChars keyword.toList s.toList

/-- The characters `.` does not match. -/
def isLineTerminator (c : Char) : Bool :=
  c == '\n' || c == '\r' || c == '\u2028' || c == '\u2029'

/-- The case folding applied to both sides of a character comparison under
flag `i`. -/
def canonicalize (c : Char) : Char :=
  c.toUpper

/-- The terms of the regular expressions in `processPrompt`. -/
inductive RegexItem where
  | char (c : Char)
  | dotPlusGroup
deriving DecidableEq, Repr

/-- The terms of a run of literal characters. -/
def literal (s : String) : List RegexItem :=
  s.toList.map RegexItem.char

/-- Greedy iteration of `(.+)`: try the group at length `n`, then `n - 1`,
down to `1`, keeping the first length at which the continuation `k` matches
the rest of the input. Yields the text matched from here on and the
captures. -/
def tryLengths (k : List Char → Option (List Char × List String)) (input : List Char) :
    Nat → Option (List Char × List String)
  | 0 => none
  | n + 1 =>
    match k (input.drop (n + 1)) with
    | some (m, caps) => some (input.take (n + 1) ++ m, String.mk (input.take (n + 1)) :: caps)
    | none => tryLengths k input n

/-- Backtracking match of a pattern at the start of `input`: the matched
text and the captures, or `none`. -/
def matchFrom : List RegexItem → List Char → Option (List Char × List String)
  | [], _ => some ([], [])
  | .char c :: rest, input =>
    match input with
    | [] => none
    | x :: xs =>
      if canonicalize x = canonicalize c then
        match matchFrom rest xs with
        | some (m, caps) => some (x :: m, caps)
        | none => none
      else none
  | .dotPlusGroup :: rest, input =>
    tryLengths (matchFrom rest) input
      (input.takeWhile (fun c => !isLineTerminator c)).length

/-- Search for the leftmost position at which the pattern matches. -/
def searchFrom (pattern : List RegexItem) : List Char → Option (List Char × List String)
  | [] => matchFrom pattern []
  | c :: cs =>
    match matchFrom pattern (c :: cs) with
    | some r => some r
    | none => searchFrom pattern cs

/-- The method `prompt.match(regex)` for a regex without flag `g`: `none` is
`null`, otherwise the array of the matched text followed by the captures. -/
def stringMatch (pattern : List RegexItem) (s : String) : Option (List String) :=
  match searchFrom pattern s.toList with
  | some (m, caps) => some (String.mk m :: caps)
  | none => none

/-- The literal `/create file (.+) with content (.+)/i`. -/
def createFileRegex : List RegexItem :=
  literal "create file " ++ [.dotPlusGroup] ++ literal " with content " ++ [.dotPlusGroup]

/-- The literal `/read file (.+)/i`. -/
def readFileRegex : List RegexItem :=
  literal "read file " ++ [.dotPlusGroup]

/-- The literal `/edit file (.+) with content (.+)/i`. -/
def editFileRegex : List RegexItem :=
  literal "edit file " ++ [.dotPlusGroup] ++ literal " with content " ++ [.dotPlusGroup]

/-- The literal `/delete file (.+)/i`. -/
def deleteFileRegex : List RegexItem :=
  literal "delete file " ++ [.dotPlusGroup]

namespace FilesystemMCPClient

/-- The text of the fallback result of `processPrompt`. -/
def helpText : String :=
  "I didn\x27t understand that command. Try: \x27create file filename.txt with content hello world\x27, \x27read file filename.txt\x27, \x27edit file filename.txt with content new content\x27, \x27delete file filename.txt\x27, or \x27list files\x27"

/-- Element `i` of a match array whose groups all took part. -/
def group (m : List String) (i : Nat) : String :=
  m.getD i ""

/-- Method `processPrompt(prompt, workingDirectory = "./workspace")`; an
omitted working directory is `none`. -/
def processPrompt (respond : Respond) (prompt : String) (workingDirectory : Option String)
    (self : FilesystemMCPClient) (sent : List ToolCallRequest) : ClientOutcome :=
  let workingDirectory := workingDirectory.getD "./workspace"
  let lowerPrompt := toLowerCase prompt
  let help : ClientOutcome := (.ok (textResult helpText), self, sent)
  if includes lowerPrompt "create file" then
    match stringMatch createFileRegex prompt with
    | some m =>
      let filepath := workingDirectory ++ "/" ++ group m 1
      let content := group m 2
      createFile respond (.string filepath) (.string content) self sent
    | none => help
  else if includes lowerPrompt "read file" then
    match stringMatch readFileRegex prompt with
    | some m =>
      let filepath := workingDirectory ++ "/" ++ group m 1
      readFile respond (.string filepath) self sent
    | none => help
  else if includes lowerPrompt "edit file" then
    match stringMatch editFileRegex prompt with
    | some m =>
      let filepath := workingDirectory ++ "/" ++ group m 1
      let content := group m 2
      editFile respond (.string filepath) (.string content) self sent
    | none => help
  else if includes lowerPrompt "delete file" then
    match stringMatch deleteFileRegex prompt with
    | some m =>
      let filepath := workingDirectory ++ "/" ++ group m 1
      deleteFile respond (.string filepath) self sent
    | none => help
  else if includes lowerPrompt "list files" then
    listFiles respond (.string workingDirectory) self sent
  else help

end FilesystemMCPClient

/-! ## Notions used to state the properties -/

/-- The text `t` begins with `pre`. -/
def startsWith (pre t : String) : Prop :=
  pre.toList <+: t.toList

/-- The text `t` contains `part` as a substring. -/
def containsText (part t : String) : Prop :=
  ∃ a b : String, t = a ++ part ++ b

/-- The names of the six registered tools. -/
def registeredNames : List String :=
  ["create_file", "read_file", "edit_file", "delete_file", "list_files", "create_directory"]

/-- The line the listing shows for an entry: the tag, a space, the name. -/
def taggedLine (file : Dirent) : String :=
  if file.isDirectory then "[DIR] " ++ file.name else "[FILE] " ++ file.name

/-- Split a text at every newline character. -/
def splitNewline : List Char → List (List Char)
  | [] => [[]]
  | c :: cs =>
    if c = '\n' then [] :: splitNewline cs
    else
      match splitNewline cs with
      | [] => [[c]]
      | l :: ls => (c :: l) :: ls

/-- The lines of a text: none for the empty text, otherwise the pieces
between newline characters. -/
def textLines (s : String) : List String :=
  if s.toList.isEmpty then [] else (splitNewline s.toList).map String.mk

/-- Success of a write tool call, read off its result: the confirmation of
that tool for `path`. -/
def writeConfirmation (tool path : String) : String :=
  if tool = "create_file" then "File created successfully at: " ++ path
  else "File edited successfully: " ++ path

/-- The characters that follow the first line of a joined listing. -/
def tailChars : List String → List Char
  | [] => []
  | a :: rest => '\n' :: (a.toList ++ tailChars rest)

/-- The text `s` begins with `part`, letter case aside. -/
def beginsWithCI : List Char → List Char → Bool
  | [], _ => true
  | _ :: _, [] => false
  | c :: cs, x :: xs => decide (canonicalize x = canonicalize c) && beginsWithCI cs xs

/-- The positions of `s` at which `part` occurs, letter case aside. -/
def occurrencesCI (part s : String) : List Nat :=
  (List.range (s.length + 1)).filter (fun i => beginsWithCI part.toList (s.toList.drop i))

/-- A text free of the line terminators that `.` does not match. -/
def singleLine (s : String) : Bool :=
  s.toList.all (fun c => !isLineTerminator c)

/-- A client on which `connect()` has succeeded. -/
def connectedClient : FilesystemMCPClient :=
  (FilesystemMCPClient.connect (.ok ()) (.ok ()) FilesystemMCPClient.new).2

/-! ## Properties of the server -/

section Server

open FilesystemMCPServer

variable {σ : Type}

theorem containsText_suffix (a p : String) : containsText p (a ++ p) :=
  ⟨a, "", by simp⟩

theorem containsText_inner (a p b c : String) : containsText p (a ++ p ++ b ++ c) :=
  ⟨a, b ++ c, by simp [String.append_assoc]⟩

/-- Every tool method that returns, returns a single text block. -/
theorem callTool_ok_text (fs : FsCapability σ) (request : CallToolRequest) (w : σ)
    (result : CallToolResult) (h : (callTool fs request w).1 = .ok result) :
    ∃ t : String, result = textResult t := by
  unfold callTool at h
  simp only [createFile, readFile, editFile, deleteFile, listFiles, createDirectory] at h
  repeat' split at h
  all_goals first
    | (simp only [reduceCtorEq] at h; done)
    | (simp only [Except.ok.injEq] at h; exact ⟨_, h.symm⟩)

theorem errorPrefix_unknownTool (name : String) :
    "Error: " ++ ("Unknown tool: " ++ name) = "Error: Unknown tool: " ++ name := by
  rw [← String.append_assoc]
  rfl

/-- C5: on every request the `tools/list` handler returns the same six
descriptors, named in order create_file, read_file, edit_file, delete_file,
list_files, create_directory, with no name twice, and with the required
arguments of the schema table. -/
theorem listTools_catalog {ρ : Type} (request : ρ) :
    handleListTools request = tools ∧
    (handleListTools request).length = 6 ∧
    (handleListTools request).map (fun t => t.name) =
      ["create_file", "read_file", "edit_file", "delete_file", "list_files",
        "create_directory"] ∧
    ((handleListTools request).map (fun t => t.name)).Nodup ∧
    (handleListTools request).map (fun t => t.inputSchema.required) =
      [["filepath", "content"], ["filepath"], ["filepath", "content"], ["filepath"],
        ["dirpath"], ["dirpath"]] := by
  refine ⟨rfl, rfl, rfl, ?_, rfl⟩
  simp [handleListTools, tools]

/-- C1 (as stated, refuted): for the unregistered name `format_disk` the
handler returns the text `Error: Unknown tool: format_disk`, which does not
begin with `Unknown tool:`. -/
theorem unknownTool_text_not_bare :
    (handleCallTool memFs ⟨"format_disk", none⟩ []).1 =
      .ok (textResult "Error: Unknown tool: format_disk") ∧
    ¬ startsWith "Unknown tool:" "Error: Unknown tool: format_disk" := by
  refine ⟨rfl, ?_⟩
  simp [startsWith]

/-- C1 (amended): for a tool name outside the six registered names and any
arguments, the handler returns (does not throw) a result whose single text
block is `Error: Unknown tool: ` followed by the name, leaves the world
untouched, and so answers any later call as if the unknown-tool call had not
been made. -/
theorem unknownTool_result (fs : FsCapability σ) (name : String) (args : Option JsObject)
    (w : σ) (h : name ∉ registeredNames) :
    handleCallTool fs ⟨name, args⟩ w =
      (.ok (textResult ("Error: Unknown tool: " ++ name)), w) ∧
    startsWith "Error: Unknown tool:" ("Error: Unknown tool: " ++ name) ∧
    ∀ later : CallToolRequest,
      handleCallTool fs later (handleCallTool fs ⟨name, args⟩ w).2 = handleCallTool fs later w := by
  simp only [registeredNames, List.mem_cons, List.mem_singleton, not_or, List.not_mem_nil,
    or_false] at h
  obtain ⟨h1, h2, h3, h4, h5, h6⟩ := h
  have key : handleCallTool fs ⟨name, args⟩ w =
      (.ok (textResult ("Error: Unknown tool: " ++ name)), w) := by
    simp [handleCallTool, callTool, h1, h2, h3, h4, h5, h6, errorPrefix_unknownTool]
  refine ⟨key, ?_, ?_⟩
  · simp [startsWith]
  · intro later
    rw [key]

/-- Witness of `unknownTool_result` at the name `format_disk`. -/
theorem unknownTool_result_witness :
    "format_disk" ∉ registeredNames ∧
    handleCallTool memFs ⟨"format_disk", none⟩ [] =
      (.ok (textResult ("Error: Unknown tool: " ++ "format_disk")), []) :=
  ⟨by decide, (unknownTool_result memFs "format_disk" none [] (by decide)).1⟩

/-- C2: for each registered tool and a request carrying its required path
argument, when the filesystem capability succeeds the handler returns a result
with exactly one block, of type text, whose text follows the fixed template
of the tool and contains the path. -/
theorem registeredTool_success (fs : FsCapability σ) (w w1 : σ) (args : JsObject)
    (path : String) :
    (args.get "filepath" = .string path →
      fs.writeFile (.string path) (args.get "content") "utf8" w = (.ok (), w1) →
      handleCallTool fs ⟨"create_file", some args⟩ w =
        (.ok ⟨[⟨"text", "File created successfully at: " ++ path⟩]⟩, w1) ∧
      containsText path ("File created successfully at: " ++ path)) ∧
    (∀ content : String, args.get "filepath" = .string path →
      fs.readFile (.string path) "utf8" w = (.ok content, w1) →
      handleCallTool fs ⟨"read_file", some args⟩ w =
        (.ok ⟨[⟨"text", "Content of " ++ path ++ ":\n\n" ++ content⟩]⟩, w1) ∧
      containsText path ("Content of " ++ path ++ ":\n\n" ++ content)) ∧
    (args.get "filepath" = .string path →
      fs.writeFile (.string path) (args.get "content") "utf8" w = (.ok (), w1) →
      handleCallTool fs ⟨"edit_file", some args⟩ w =
        (.ok ⟨[⟨"text", "File edited successfully: " ++ path⟩]⟩, w1) ∧
      containsText path ("File edited successfully: " ++ path)) ∧
    (args.get "filepath" = .string path →
      fs.unlink (.string path) w = (.ok (), w1) →
      handleCallTool fs ⟨"delete_file", some args⟩ w =
        (.ok ⟨[⟨"text", "File deleted successfully: " ++ path⟩]⟩, w1) ∧
      containsText path ("File deleted successfully: " ++ path)) ∧
    (∀ files : List Dirent, args.get "dirpath" = .string path →
      fs.readdir (.string path) w = (.ok files, w1) →
      handleCallTool fs ⟨"list_files", some args⟩ w =
        (.ok ⟨[⟨"text", "Contents of " ++ path ++ ":\n\n" ++ fileList files⟩]⟩, w1) ∧
      containsText path ("Contents of " ++ path ++ ":\n\n" ++ fileList files)) ∧
    (args.get "dirpath" = .string path →
      fs.mkdir (.string path) w = (.ok (), w1) →
      handleCallTool fs ⟨"create_directory", some args⟩ w =
        (.ok ⟨[⟨"text", "Directory created successfully: " ++ path⟩]⟩, w1) ∧
      containsText path ("Directory created successfully: " ++ path)) := by
  refine ⟨?_, ?_, ?_, ?_, ?_, ?_⟩
  · intro hp hw
    refine ⟨?_, containsText_suffix _ _⟩
    simp [handleCallTool, callTool, getArg, createFile, hp, hw, JsValue.toStr, textResult]
  · intro content hp hr
    refine ⟨?_, containsText_inner _ _ _ _⟩
    simp [handleCallTool, callTool, getArg, readFile, hp, hr, JsValue.toStr, textResult]
  · intro hp hw
    refine ⟨?_, containsText_suffix _ _⟩
    simp [handleCallTool, callTool, getArg, editFile, hp, hw, JsValue.toStr, textResult]
  · intro hp hu
    refine ⟨?_, containsText_suffix _ _⟩
    simp [handleCallTool, callTool, getArg, deleteFile, hp, hu, JsValue.toStr, textResult]
  · intro files hp hr
    refine ⟨?_, containsText_inner _ _ _ _⟩
    simp [handleCallTool, callTool, getArg, listFiles, hp, hr, JsValue.toStr, textResult]
  · intro hp hm
    refine ⟨?_, containsText_suffix _ _⟩
    simp [handleCallTool, callTool, getArg, createDirectory, hp, hm, JsValue.toStr, textResult]

/-- Witness of `registeredTool_success`: each of the six tools on an
in-memory filesystem holding the directory `ws` and the file `ws/a.txt`. -/
theorem registeredTool_success_witness :
    (handleCallTool memFs
        ⟨"create_file", some [("filepath", .string "b.txt"), ("content", .string "hi")]⟩
        [("ws", MemNode.directory), ("ws/a.txt", MemNode.file "hello")] =
      (.ok ⟨[⟨"text", "File created successfully at: b.txt"⟩]⟩,
        [("b.txt", MemNode.file "hi"), ("ws", MemNode.directory),
          ("ws/a.txt", MemNode.file "hello")]) ∧
      containsText "b.txt" "File created successfully at: b.txt") ∧
    (handleCallTool memFs ⟨"read_file", some [("filepath", .string "ws/a.txt")]⟩
        [("ws", MemNode.directory), ("ws/a.txt", MemNode.file "hello")] =
      (.ok ⟨[⟨"text", "Content of ws/a.txt:\n\nhello"⟩]⟩,
        [("ws", MemNode.directory), ("ws/a.txt", MemNode.file "hello")]) ∧
      containsText "ws/a.txt" "Content of ws/a.txt:\n\nhello") ∧
    (handleCallTool memFs
        ⟨"edit_file", some [("filepath", .string "ws/a.txt"), ("content", .string "bye")]⟩
        [("ws", MemNode.directory), ("ws/a.txt", MemNode.file "hello")] =
      (.ok ⟨[⟨"text", "File edited successfully: ws/a.txt"⟩]⟩,
        [("ws/a.txt", MemNode.file "bye"), ("ws", MemNode.directory)]) ∧
      containsText "ws/a.txt" "File edited successfully: ws/a.txt") ∧
    (handleCallTool memFs ⟨"delete_file", some [("filepath", .string "ws/a.txt")]⟩
        [("ws", MemNode.directory), ("ws/a.txt", MemNode.file "hello")] =
      (.ok ⟨[⟨"text", "File deleted successfully: ws/a.txt"⟩]⟩,
        [("ws", MemNode.directory)]) ∧
      containsText "ws/a.txt" "File deleted successfully: ws/a.txt") ∧
    (handleCallTool memFs ⟨"list_files", some [("dirpath", .string "ws")]⟩
        [("ws", MemNode.directory), ("ws/a.txt", MemNode.file "hello")] =
      (.ok ⟨[⟨"text", "Contents of ws:\n\n[FILE] a.txt"⟩]⟩,
        [("ws", MemNode.directory), ("ws/a.txt", MemNode.file "hello")]) ∧
      containsText "ws" "Contents of ws:\n\n[FILE] a.txt") ∧
    (handleCallTool memFs ⟨"create_directory", some [("dirpath", .string "ws/sub")]⟩
        [("ws", MemNode.directory), ("ws/a.txt", MemNode.file "hello")] =
      (.ok ⟨[⟨"text", "Directory created successfully: ws/sub"⟩]⟩,
        [("ws/sub", MemNode.directory), ("ws", MemNode.directory),
          ("ws/a.txt", MemNode.file "hello")]) ∧
      containsText "ws/sub" "Directory created successfully: ws/sub") :=
  ⟨(registeredTool_success memFs
      [("ws", MemNode.directory), ("ws/a.txt", MemNode.file "hello")]
      [("b.txt", MemNode.file "hi"), ("ws", MemNode.directory),
        ("ws/a.txt", MemNode.file "hello")]
      [("filepath", .string "b.txt"), ("content", .string "hi")] "b.txt").1 rfl rfl,
   (registeredTool_success memFs
      [("ws", MemNode.directory), ("ws/a.txt", MemNode.file "hello")]
      [("ws", MemNode.directory), ("ws/a.txt", MemNode.file "hello")]
      [("filepath", .string "ws/a.txt")] "ws/a.txt").2.1 "hello" rfl rfl,
   (registeredTool_success memFs
      [("ws", MemNode.directory), ("ws/a.txt", MemNode.file "hello")]
      [("ws/a.txt", MemNode.file "bye"), ("ws", MemNode.directory)]
      [("filepath", .string "ws/a.txt"), ("content", .string "bye")] "ws/a.txt").2.2.1
      rfl rfl,
   (registeredTool_success memFs
      [("ws", MemNode.directory), ("ws/a.txt", MemNode.file "hello")]
      [("ws", MemNode.directory)]
      [("filepath", .string "ws/a.txt")] "ws/a.txt").2.2.2.1 rfl rfl,
   (registeredTool_success memFs
      [("ws", MemNode.directory), ("ws/a.txt", MemNode.file "hello")]
      [("ws", MemNode.directory), ("ws/a.txt", MemNode.file "hello")]
      [("dirpath", .string "ws")] "ws").2.2.2.2.1 [⟨"a.txt", false⟩] rfl rfl,
   (registeredTool_success memFs
      [("ws", MemNode.directory), ("ws/a.txt", MemNode.file "hello")]
      [("ws/sub", MemNode.directory), ("ws", MemNode.directory),
        ("ws/a.txt", MemNode.file "hello")]
      [("dirpath", .string "ws/sub")] "ws/sub").2.2.2.2.2 rfl rfl⟩

/-- C3: every dispatch path of the handler ends in a result with exactly one
text block, for every tool name, every arguments value and every behaviour of
the capability; when the arguments mapping is absent, or when the capability
fails with an error, the text is `Error: ` followed by the message of that
error. -/
theorem handler_always_returns (fs : FsCapability σ) (request : CallToolRequest) (w : σ) :
    (∃ t : String, (handleCallTool fs request w).1 = .ok ⟨[⟨"text", t⟩]⟩) ∧
    (request.arguments = none → request.name ∈ registeredNames →
      handleCallTool fs request w =
        (.ok ⟨[⟨"text", "Error: " ++
          (undefinedProperty
            (if request.name = "list_files" ∨ request.name = "create_directory"
              then "dirpath" else "filepath")).message⟩]⟩, w)) ∧
    (∀ (args : JsObject) (e : JsError) (w1 : σ), request.arguments = some args →
      (request.name = "create_file" →
        fs.writeFile (args.get "filepath") (args.get "content") "utf8" w = (.error e, w1) →
        handleCallTool fs request w = (.ok ⟨[⟨"text", "Error: " ++ e.message⟩]⟩, w1)) ∧
      (request.name = "read_file" →
        fs.readFile (args.get "filepath") "utf8" w = (.error e, w1) →
        handleCallTool fs request w = (.ok ⟨[⟨"text", "Error: " ++ e.message⟩]⟩, w1)) ∧
      (request.name = "edit_file" →
        fs.writeFile (args.get "filepath") (args.get "content") "utf8" w = (.error e, w1) →
        handleCallTool fs request w = (.ok ⟨[⟨"text", "Error: " ++ e.message⟩]⟩, w1)) ∧
      (request.name = "delete_file" →
        fs.unlink (args.get "filepath") w = (.error e, w1) →
        handleCallTool fs request w = (.ok ⟨[⟨"text", "Error: " ++ e.message⟩]⟩, w1)) ∧
      (request.name = "list_files" →
        fs.readdir (args.get "dirpath") w = (.error e, w1) →
        handleCallTool fs request w = (.ok ⟨[⟨"text", "Error: " ++ e.message⟩]⟩, w1)) ∧
      (request.name = "create_directory" →
        fs.mkdir (args.get "dirpath") w = (.error e, w1) →
        handleCallTool fs request w = (.ok ⟨[⟨"text", "Error: " ++ e.message⟩]⟩, w1))) := by
  obtain ⟨name, arguments⟩ := request
  refine ⟨?_, ?_, ?_⟩
  · simp only [handleCallTool]
    split
    · rename_i result w1 hres
      obtain ⟨t, ht⟩ := callTool_ok_text fs ⟨name, arguments⟩ w result (by rw [hres])
      exact ⟨t, by rw [ht]; rfl⟩
    · exact ⟨_, rfl⟩
  · intro hargs hname
    simp only at hargs hname
    subst hargs
    simp only [registeredNames, List.mem_cons, List.mem_singleton, List.not_mem_nil,
      or_false] at hname
    rcases hname with h | h | h | h | h | h <;> subst h <;>
      simp [handleCallTool, callTool, getArg, textResult]
  · intro args e w1 hargs
    simp only at hargs
    subst hargs
    refine ⟨?_, ?_, ?_, ?_, ?_, ?_⟩ <;> intro hname hfail <;> simp only at hname <;>
      subst hname
    · simp [handleCallTool, callTool, getArg, createFile, hfail, textResult]
    · simp [handleCallTool, callTool, getArg, readFile, hfail, textResult]
    · simp [handleCallTool, callTool, getArg, editFile, hfail, textResult]
    · simp [handleCallTool, callTool, getArg, deleteFile, hfail, textResult]
    · simp [handleCallTool, callTool, getArg, listFiles, hfail, textResult]
    · simp [handleCallTool, callTool, getArg, createDirectory, hfail, textResult]

/-- Witness of `handler_always_returns`: `delete_file` on a path that does
not exist in the in-memory filesystem, and `read_file` without arguments. -/
theorem handler_always_returns_witness :
    handleCallTool memFs ⟨"delete_file", some [("filepath", .string "nope.txt")]⟩ [] =
      (.ok ⟨[⟨"text",
        "Error: ENOENT: no such file or directory, unlink \x27nope.txt\x27"⟩]⟩, []) ∧
    handleCallTool memFs ⟨"read_file", none⟩ [] =
      (.ok ⟨[⟨"text",
        "Error: Cannot read properties of undefined (reading \x27filepath\x27)"⟩]⟩, []) :=
  ⟨((handler_always_returns memFs
      ⟨"delete_file", some [("filepath", .string "nope.txt")]⟩ []).2.2
    [("filepath", .string "nope.txt")]
    ⟨"ENOENT: no such file or directory, unlink \x27nope.txt\x27"⟩ [] rfl).2.2.2.1 rfl rfl,
   (handler_always_returns memFs ⟨"read_file", none⟩ []).2.1 rfl (by decide)⟩

/-! ### Listing format -/

theorem entryLine_eq_taggedLine (file : Dirent) : entryLine file = taggedLine file := by
  unfold entryLine taggedLine
  cases file.isDirectory <;> simp only [Bool.false_eq_true, if_false, if_true] <;>
    rw [String.append_assoc] <;> rfl

theorem intercalate_go_toList (acc : String) (rest : List String) :
    (String.intercalate.go acc "\n" rest).toList = acc.toList ++ tailChars rest := by
  induction rest generalizing acc with
  | nil => simp [String.intercalate.go, tailChars]
  | cons a rest ih =>
    rw [String.intercalate.go, ih]
    simp [tailChars, String.toList]

theorem splitNewline_single (l : List Char) (h : '\n' ∉ l) : splitNewline l = [l] := by
  induction l with
  | nil => rfl
  | cons c cs ih =>
    have hc : c ≠ '\n' := fun e => h (by simp [e])
    have hcs : '\n' ∉ cs := fun e => h (by simp [e])
    simp [splitNewline, hc, ih hcs]

theorem splitNewline_append (l rest : List Char) (h : '\n' ∉ l) :
    splitNewline (l ++ '\n' :: rest) = l :: splitNewline rest := by
  induction l with
  | nil => simp [splitNewline]
  | cons c cs ih =>
    have hc : c ≠ '\n' := fun e => h (by simp [e])
    have hcs : '\n' ∉ cs := fun e => h (by simp [e])
    simp [splitNewline, hc, ih hcs]

theorem splitNewline_joined (a : String) (rest : List String) (ha : '\n' ∉ a.toList)
    (hrest : ∀ b ∈ rest, '\n' ∉ b.toList) :
    splitNewline (a.toList ++ tailChars rest) = a.toList :: rest.map String.toList := by
  induction rest generalizing a with
  | nil => simpa [tailChars] using splitNewline_single a.toList ha
  | cons b rest ih =>
    have hb : '\n' ∉ b.toList := hrest b (by simp)
    have hr : ∀ c ∈ rest, '\n' ∉ c.toList := fun c hc => hrest c (by simp [hc])
    simp only [tailChars, List.map_cons]
    rw [splitNewline_append _ _ ha, ih b hb hr]

theorem taggedLine_no_newline (file : Dirent) (h : '\n' ∉ file.name.toList) :
    '\n' ∉ (taggedLine file).toList := by
  unfold taggedLine
  cases file.isDirectory <;> simp [String.toList] at h ⊢ <;> exact h

theorem textLines_fileList (files : List Dirent) (h : ∀ f ∈ files, '\n' ∉ f.name.toList) :
    textLines ("\n".intercalate (files.map taggedLine)) = files.map taggedLine := by
  cases files with
  | nil => rfl
  | cons f rest =>
    have hf : '\n' ∉ (taggedLine f).toList := taggedLine_no_newline f (h f (by simp))
    have hr : ∀ b ∈ rest.map taggedLine, '\n' ∉ b.toList := by
      intro b hb
      obtain ⟨g, hg, rfl⟩ := List.mem_map.1 hb
      exact taggedLine_no_newline g (h g (by simp [hg]))
    have hne : ¬ (taggedLine f).toList = [] := by
      unfold taggedLine
      cases f.isDirectory <;> simp [String.toList]
    simp only [List.map_cons, String.intercalate, textLines, intercalate_go_toList,
      List.isEmpty_eq_true, List.append_eq_nil, hne, false_and, if_false]
    rw [splitNewline_joined _ _ hf hr]
    simp [List.map_map, Function.comp_def, String.toList]

/-- C9: for a directory path `d` and the entries the listing capability
returns, the `list_files` result is one text block: `Contents of d:`, an empty
line, then one line per entry in the order of the capability, joined by a
single newline, each line `[DIR] name` for a directory and `[FILE] name`
otherwise; when no name contains a newline the lines of the listing are
exactly these, one per entry. -/
theorem listFiles_format (fs : FsCapability σ) (w w1 : σ) (args : JsObject) (d : String)
    (files : List Dirent) (hd : args.get "dirpath" = .string d)
    (h : fs.readdir (.string d) w = (.ok files, w1)) :
    handleCallTool fs ⟨"list_files", some args⟩ w =
      (.ok ⟨[⟨"text", "Contents of " ++ d ++ ":\n\n" ++
        "\n".intercalate (files.map taggedLine)⟩]⟩, w1) ∧
    (files.map taggedLine).length = files.length ∧
    ((∀ f ∈ files, '\n' ∉ f.name.toList) →
      textLines ("\n".intercalate (files.map taggedLine)) = files.map taggedLine ∧
      (textLines ("\n".intercalate (files.map taggedLine))).length = files.length) := by
  refine ⟨?_, by simp, ?_⟩
  · have hl : files.map entryLine = files.map taggedLine :=
      List.map_congr_left (fun f _ => entryLine_eq_taggedLine f)
    simp [handleCallTool, callTool, getArg, listFiles, hd, h, JsValue.toStr, textResult,
      fileList, hl]
  · intro hn
    rw [textLines_fileList files hn]
    simp

/-- Witness of `listFiles_format`: a directory holding the file `a.txt` and
the subdirectory `b`. -/
theorem listFiles_format_witness :
    handleCallTool memFs ⟨"list_files", some [("dirpath", .string "ws")]⟩
        [("ws", MemNode.directory), ("ws/a.txt", MemNode.file "x"),
          ("ws/b", MemNode.directory)] =
      (.ok ⟨[⟨"text", "Contents of ws:\n\n[FILE] a.txt\n[DIR] b"⟩]⟩,
        [("ws", MemNode.directory), ("ws/a.txt", MemNode.file "x"),
          ("ws/b", MemNode.directory)]) ∧
    textLines "[FILE] a.txt\n[DIR] b" = ["[FILE] a.txt", "[DIR] b"] :=
  ⟨(listFiles_format memFs
      [("ws", MemNode.directory), ("ws/a.txt", MemNode.file "x"), ("ws/b", MemNode.directory)]
      [("ws", MemNode.directory), ("ws/a.txt", MemNode.file "x"), ("ws/b", MemNode.directory)]
      [("dirpath", .string "ws")] "ws" [⟨"a.txt", false⟩, ⟨"b", true⟩] rfl rfl).1,
   ((listFiles_format memFs
      [("ws", MemNode.directory), ("ws/a.txt", MemNode.file "x"), ("ws/b", MemNode.directory)]
      [("ws", MemNode.directory), ("ws/a.txt", MemNode.file "x"), ("ws/b", MemNode.directory)]
      [("dirpath", .string "ws")] "ws" [⟨"a.txt", false⟩, ⟨"b", true⟩] rfl rfl).2.2
      (by decide)).1⟩

/-! ### Round trip on the in-memory filesystem -/

theorem error_ne_writeConfirmation (tool path msg : String) :
    "Error: " ++ msg ≠ writeConfirmation tool path := by
  intro h
  have h2 := congrArg String.toList h
  unfold writeConfirmation at h2
  split at h2 <;> simp [String.toList] at h2

theorem memFs_lookup_put (m : MemFs) (p : String) (n : MemNode) :
    (m.put p n).lookup p = some n := by
  simp [MemFs.put, List.lookup]

/-- C6: on the in-memory filesystem (a map from paths to contents), for every
path `P` and content `C`, after a `create_file` or `edit_file` call with
`P` and `C` that succeeded (it returned its confirmation), whether or not `P`
existed before, a `read_file` call for `P` returns the single text block
`Content of P:`, an empty line, then `C` unchanged. -/
theorem write_then_read (m : MemFs) (tool P C : String) (args readArgs : JsObject)
    (htool : tool = "create_file" ∨ tool = "edit_file")
    (hP : args.get "filepath" = .string P) (hC : args.get "content" = .string C)
    (hR : readArgs.get "filepath" = .string P)
    (hsucc : (handleCallTool memFs ⟨tool, some args⟩ m).1 =
      .ok ⟨[⟨"text", writeConfirmation tool P⟩]⟩) :
    (handleCallTool memFs ⟨"read_file", some readArgs⟩
        (handleCallTool memFs ⟨tool, some args⟩ m).2).1 =
      .ok ⟨[⟨"text", "Content of " ++ P ++ ":\n\n" ++ C⟩]⟩ := by
  have hwrite : memFs.writeFile (.string P) (.string C) "utf8" m =
      (.ok (), m.put P (.file C)) := by
    cases hl : m.lookup P with
    | none => simp [memFs, hl]
    | some n =>
      cases n with
      | file c => simp [memFs, hl]
      | directory =>
        exfalso
        rcases htool with rfl | rfl <;>
          simp [handleCallTool, callTool, getArg, createFile, editFile, hP, hC, memFs, hl,
            textResult] at hsucc <;>
          exact error_ne_writeConfirmation _ _ _ hsucc
  have hstate : (handleCallTool memFs ⟨tool, some args⟩ m).2 = m.put P (.file C) := by
    rcases htool with rfl | rfl <;>
      simp [handleCallTool, callTool, getArg, createFile, editFile, hP, hC, hwrite,
        JsValue.toStr]
  rw [hstate]
  simp [handleCallTool, callTool, getArg, readFile, hR, memFs, memFs_lookup_put,
    JsValue.toStr, textResult]

/-- Witness of `write_then_read`: create `a.txt` with content `hello` in the
empty filesystem, then read it. -/
theorem write_then_read_witness :
    (handleCallTool memFs ⟨"read_file", some [("filepath", .string "a.txt")]⟩
        (handleCallTool memFs
          ⟨"create_file", some [("filepath", .string "a.txt"), ("content", .string "hello")]⟩
          []).2).1 =
      .ok ⟨[⟨"text", "Content of " ++ "a.txt" ++ ":\n\n" ++ "hello"⟩]⟩ :=
  write_then_read [] "create_file" "a.txt" "hello"
    [("filepath", .string "a.txt"), ("content", .string "hello")]
    [("filepath", .string "a.txt")] (Or.inl rfl) rfl rfl rfl rfl

end Server

/-! ## Properties of the client -/

section Client

open FilesystemMCPClient

/-- The flag `isConnected` is only ever set on an instance holding a client. -/
theorem connect_keeps_client (spawn handshake : Except JsError Unit)
    (self : FilesystemMCPClient)
    (h : self.isConnected = true → self.client.isSome = true) :
    (connect spawn handshake self).2.isConnected = true →
      (connect spawn handshake self).2.client.isSome = true := by
  unfold connect
  cases spawn <;> cases handshake <;> simp <;> exact h

theorem disconnect_keeps_client (close : Except JsError Unit) (self : FilesystemMCPClient)
    (h : self.isConnected = true → self.client.isSome = true) :
    (disconnect close self).2.isConnected = true →
      (disconnect close self).2.client.isSome = true := by
  unfold disconnect
  split
  · cases close <;> simp
    exact h
  · exact h

/-- C4: in a client state that is not Ready (`isConnected` is false), each of
the six facade methods, for every argument, fails with the error
`Client not connected`, sends no request and leaves the client unchanged; a
freshly constructed client, a client whose `connect()` failed from such a
state, and a client after a `disconnect()` that returned are in such a
state. -/
theorem facade_notConnected (respond : Respond) (self : FilesystemMCPClient)
    (sent : List ToolCallRequest) (a b : JsValue) (h : self.isConnected = false) :
    (createFile respond a b self sent = (.error ⟨"Client not connected"⟩, self, sent) ∧
      readFile respond a self sent = (.error ⟨"Client not connected"⟩, self, sent) ∧
      editFile respond a b self sent = (.error ⟨"Client not connected"⟩, self, sent) ∧
      deleteFile respond a self sent = (.error ⟨"Client not connected"⟩, self, sent) ∧
      listFiles respond a self sent = (.error ⟨"Client not connected"⟩, self, sent) ∧
      createDirectory respond a self sent =
        (.error ⟨"Client not connected"⟩, self, sent)) ∧
    FilesystemMCPClient.new.isConnected = false ∧
    (∀ spawn handshake : Except JsError Unit, (connect spawn handshake self).1 = false →
      (connect spawn handshake self).2.isConnected = false) ∧
    (∀ (close : Except JsError Unit) (st : FilesystemMCPClient),
      (st.isConnected = true → st.client.isSome = true) →
      (disconnect close st).1 = .ok () → (disconnect close st).2.isConnected = false) := by
  refine ⟨?_, rfl, ?_, ?_⟩
  · simp [createFile, readFile, editFile, deleteFile, listFiles, createDirectory, h,
      notConnected]
  · intro spawn handshake
    unfold connect
    cases spawn <;> cases handshake <;> simp [h]
  · intro close st hinv
    unfold disconnect
    cases hc : st.isConnected
    · simp [hc]
    · have hcl := hinv hc
      cases close <;> simp [hc, hcl]

/-- Witness of `facade_notConnected` at a freshly constructed client. -/
theorem facade_notConnected_witness :
    FilesystemMCPClient.new.isConnected = false ∧
    createFile (fun _ _ => .ok (textResult "done")) (.string "a.txt") (.string "hello")
        FilesystemMCPClient.new [] =
      (.error ⟨"Client not connected"⟩, FilesystemMCPClient.new, []) :=
  ⟨rfl, (facade_notConnected (fun _ _ => .ok (textResult "done")) FilesystemMCPClient.new []
    (.string "a.txt") (.string "hello") rfl).1.1⟩

/-- C8: a prompt that matches none of the five command shapes (the four
patterns and the keyword `list files`) gets, for every working directory and
every client state, connected or not, the result whose single text block is
the fixed help text: nothing is thrown, no request is sent and the client is
unchanged. -/
theorem unrecognized_prompt_help (respond : Respond) (prompt : String)
    (workingDirectory : Option String) (self : FilesystemMCPClient)
    (sent : List ToolCallRequest)
    (hcreate : stringMatch createFileRegex prompt = none)
    (hread : stringMatch readFileRegex prompt = none)
    (hedit : stringMatch editFileRegex prompt = none)
    (hdelete : stringMatch deleteFileRegex prompt = none)
    (hlist : includes (toLowerCase prompt) "list files" = false) :
    processPrompt respond prompt workingDirectory self sent =
      (.ok ⟨[⟨"text", helpText⟩]⟩, self, sent) := by
  unfold processPrompt
  simp only [hcreate, hread, hedit, hdelete, hlist]
  repeat' split
  all_goals first
    | rfl
    | contradiction

/-- Witness of `unrecognized_prompt_help`: the prompt `create file notes.txt`
on a client that was never connected. -/
theorem unrecognized_prompt_help_witness :
    processPrompt (fun _ _ => .ok (textResult "done")) "create file notes.txt" (some "./ws")
        FilesystemMCPClient.new [] =
      (.ok ⟨[⟨"text", helpText⟩]⟩, FilesystemMCPClient.new, []) :=
  unrecognized_prompt_help (fun _ _ => .ok (textResult "done")) "create file notes.txt"
    (some "./ws") FilesystemMCPClient.new [] (by decide) (by decide) (by decide) (by decide)
    (by decide)

/-- C10 (as stated, refuted): the prompt `read file create file` matches the
pattern `read file (.+)`, yet on a connected client `processPrompt` sends no
request and returns the help text, because the prompt also contains the
keyword `create file`, whose pattern does not match. -/
theorem matched_shape_gets_help :
    connectedClient.isConnected = true ∧
    stringMatch readFileRegex "read file create file" =
      some ["read file create file", "create file"] ∧
    processPrompt (fun _ _ => .ok (textResult "done")) "read file create file" (some "./ws")
        connectedClient [] =
      (.ok ⟨[⟨"text", helpText⟩]⟩, connectedClient, []) := by
  refine ⟨rfl, by decide, by rfl⟩

/-- C10 (amended): `processPrompt` picks its branch by the first of the
keywords `create file`, `read file`, `edit file`, `delete file`, `list files`
that the lower-cased prompt contains. When the pattern of the picked branch
matches (the `list files` branch has none), then on a connected client it
invokes the facade method of that branch, sending exactly one `tools/call`
request, and returns the answer of the peer instead of the help text. When
no keyword is contained or the pattern of the picked branch does not match,
it returns the help text and sends nothing. -/
theorem processPrompt_branch (respond : Respond) (prompt : String)
    (workingDirectory : Option String) (self : FilesystemMCPClient)
    (sent : List ToolCallRequest) (client : SdkClient)
    (hconn : self.isConnected = true) (hclient : self.client = some client) :
    (∀ m : List String, includes (toLowerCase prompt) "create file" = true →
      stringMatch createFileRegex prompt = some m →
      processPrompt respond prompt workingDirectory self sent =
        createFile respond (.string (workingDirectory.getD "./workspace" ++ "/" ++ group m 1))
          (.string (group m 2)) self sent ∧
      (processPrompt respond prompt workingDirectory self sent).2.2 =
        sent ++ [⟨"tools/call", "create_file",
          [("filepath", .string (workingDirectory.getD "./workspace" ++ "/" ++ group m 1)),
            ("content", .string (group m 2))]⟩]) ∧
    (∀ m : List String, includes (toLowerCase prompt) "create file" = false →
      includes (toLowerCase prompt) "read file" = true →
      stringMatch readFileRegex prompt = some m →
      processPrompt respond prompt workingDirectory self sent =
        readFile respond (.string (workingDirectory.getD "./workspace" ++ "/" ++ group m 1))
          self sent ∧
      (processPrompt respond prompt workingDirectory self sent).2.2 =
        sent ++ [⟨"tools/call", "read_file",
          [("filepath",
            .string (workingDirectory.getD "./workspace" ++ "/" ++ group m 1))]⟩]) ∧
    (∀ m : List String, includes (toLowerCase prompt) "create file" = false →
      includes (toLowerCase prompt) "read file" = false →
      includes (toLowerCase prompt) "edit file" = true →
      stringMatch editFileRegex prompt = some m →
      processPrompt respond prompt workingDirectory self sent =
        editFile respond (.string (workingDirectory.getD "./workspace" ++ "/" ++ group m 1))
          (.string (group m 2)) self sent ∧
      (processPrompt respond prompt workingDirectory self sent).2.2 =
        sent ++ [⟨"tools/call", "edit_file",
          [("filepath", .string (workingDirectory.getD "./workspace" ++ "/" ++ group m 1)),
            ("content", .string (group m 2))]⟩]) ∧
    (∀ m : List String, includes (toLowerCase prompt) "create file" = false →
      includes (toLowerCase prompt) "read file" = false →
      includes (toLowerCase prompt) "edit file" = false →
      includes (toLowerCase prompt) "delete file" = true →
      stringMatch deleteFileRegex prompt = some m →
      processPrompt respond prompt workingDirectory self sent =
        deleteFile respond (.string (workingDirectory.getD "./workspace" ++ "/" ++ group m 1))
          self sent ∧
      (processPrompt respond prompt workingDirectory self sent).2.2 =
        sent ++ [⟨"tools/call", "delete_file",
          [("filepath",
            .string (workingDirectory.getD "./workspace" ++ "/" ++ group m 1))]⟩]) ∧
    (includes (toLowerCase prompt) "create file" = false →
      includes (toLowerCase prompt) "read file" = false →
      includes (toLowerCase prompt) "edit file" = false →
      includes (toLowerCase prompt) "delete file" = false →
      includes (toLowerCase prompt) "list files" = true →
      processPrompt respond prompt workingDirectory self sent =
        listFiles respond (.string (workingDirectory.getD "./workspace")) self sent ∧
      (processPrompt respond prompt workingDirectory self sent).2.2 =
        sent ++ [⟨"tools/call", "list_files",
          [("dirpath", .string (workingDirectory.getD "./workspace"))]⟩]) ∧
    ((includes (toLowerCase prompt) "create file" = true ∧
        stringMatch createFileRegex prompt = none) ∨
      (includes (toLowerCase prompt) "create file" = false ∧
        includes (toLowerCase prompt) "read file" = true ∧
        stringMatch readFileRegex prompt = none) ∨
      (includes (toLowerCase prompt) "create file" = false ∧
        includes (toLowerCase prompt) "read file" = false ∧
        includes (toLowerCase prompt) "edit file" = true ∧
        stringMatch editFileRegex prompt = none) ∨
      (includes (toLowerCase prompt) "create file" = false ∧
        includes (toLowerCase prompt) "read file" = false ∧
        includes (toLowerCase prompt) "edit file" = false ∧
        includes (toLowerCase prompt) "delete file" = true ∧
        stringMatch deleteFileRegex prompt = none) ∨
      (includes (toLowerCase prompt) "create file" = false ∧
        includes (toLowerCase prompt) "read file" = false ∧
        includes (toLowerCase prompt) "edit file" = false ∧
        includes (toLowerCase prompt) "delete file" = false ∧
        includes (toLowerCase prompt) "list files" = false) →
      processPrompt respond prompt workingDirectory self sent =
        (.ok ⟨[⟨"text", helpText⟩]⟩, self, sent)) := by
  refine ⟨?_, ?_, ?_, ?_, ?_, ?_⟩
  · intro m h1 hm
    simp [processPrompt, h1, hm, createFile, request, hconn, hclient]
  · intro m h1 h2 hm
    simp [processPrompt, h1, h2, hm, readFile, request, hconn, hclient]
  · intro m h1 h2 h3 hm
    simp [processPrompt, h1, h2, h3, hm, editFile, request, hconn, hclient]
  · intro m h1 h2 h3 h4 hm
    simp [processPrompt, h1, h2, h3, h4, hm, deleteFile, request, hconn, hclient]
  · intro h1 h2 h3 h4 h5
    simp [processPrompt, h1, h2, h3, h4, h5, listFiles, request, hconn, hclient]
  · intro h
    rcases h with ⟨h1, hm⟩ | ⟨h1, h2, hm⟩ | ⟨h1, h2, h3, hm⟩ | ⟨h1, h2, h3, h4, hm⟩ |
      ⟨h1, h2, h3, h4, h5⟩
    · simp [processPrompt, h1, hm, textResult]
    · simp [processPrompt, h1, h2, hm, textResult]
    · simp [processPrompt, h1, h2, h3, hm, textResult]
    · simp [processPrompt, h1, h2, h3, h4, hm, textResult]
    · simp [processPrompt, h1, h2, h3, h4, h5, textResult]

/-- Witness of `processPrompt_branch` on a connected client:
`read file notes.txt` sends one `read_file` request, `list files` sends one
`list_files` request, and `create file notes.txt` gets the help text. -/
theorem processPrompt_branch_witness :
    (processPrompt (fun _ _ => .ok (textResult "done")) "read file notes.txt" (some "./ws")
        connectedClient []).2.2 =
      [⟨"tools/call", "read_file", [("filepath", .string "./ws/notes.txt")]⟩] ∧
    (processPrompt (fun _ _ => .ok (textResult "done")) "list files" none
        connectedClient []).2.2 =
      [⟨"tools/call", "list_files", [("dirpath", .string "./workspace")]⟩] ∧
    processPrompt (fun _ _ => .ok (textResult "done")) "create file notes.txt" (some "./ws")
        connectedClient [] =
      (.ok ⟨[⟨"text", helpText⟩]⟩, connectedClient, []) :=
  ⟨((processPrompt_branch (fun _ _ => .ok (textResult "done")) "read file notes.txt"
      (some "./ws") connectedClient [] ⟨"filesystem-client", "1.0.0"⟩ rfl rfl).2.1
    ["read file notes.txt", "notes.txt"] (by decide) (by decide) (by decide)).2,
   ((processPrompt_branch (fun _ _ => .ok (textResult "done")) "list files"
      none connectedClient [] ⟨"filesystem-client", "1.0.0"⟩ rfl rfl).2.2.2.2.1
    (by decide) (by decide) (by decide) (by decide) (by decide)).2,
   (processPrompt_branch (fun _ _ => .ok (textResult "done")) "create file notes.txt"
      (some "./ws") connectedClient [] ⟨"filesystem-client", "1.0.0"⟩ rfl rfl).2.2.2.2.2
    (Or.inl ⟨by decide, by decide⟩)⟩

end Client

/-! ## The create prompt -/

section Prompt

open FilesystemMCPClient

theorem matchFrom_literal (lit : List Char) (rest : List RegexItem) (tail : List Char) :
    matchFrom (lit.map RegexItem.char ++ rest) (lit ++ tail) =
      (matchFrom rest tail).map (fun r => (lit ++ r.1, r.2)) := by
  induction lit with
  | nil => cases h : matchFrom rest tail <;> simp [h]
  | cons c cs ih =>
    cases h : matchFrom rest tail <;> rw [h] at ih <;> simp [matchFrom, ih]

theorem matchFrom_literal_begins (lit : List Char) (rest : List RegexItem) (input : List Char)
    (r : List Char × List String)
    (h : matchFrom (lit.map RegexItem.char ++ rest) input = some r) :
    beginsWithCI lit input = true := by
  induction lit generalizing input r with
  | nil => rfl
  | cons c cs ih =>
    cases input with
    | nil => simp [matchFrom] at h
    | cons x xs =>
      simp only [List.map_cons, List.cons_append, matchFrom] at h
      by_cases hx : canonicalize x = canonicalize c
      · simp only [hx, if_true] at h
        cases hm : matchFrom (cs.map RegexItem.char ++ rest) xs with
        | none => simp [hm] at h
        | some r1 => simp [beginsWithCI, hx, ih xs r1 hm]
      · simp [hx] at h

theorem beginsWithCI_self (lit tail : List Char) : beginsWithCI lit (lit ++ tail) = true := by
  induction lit with
  | nil => rfl
  | cons c cs ih => simp [beginsWithCI, ih]

theorem tryLengths_longest (k : List Char → Option (List Char × List String))
    (input : List Char) (j n : Nat) (m : List Char) (caps : List String)
    (hj : 1 ≤ j) (hjn : j ≤ n) (hk : k (input.drop j) = some (m, caps))
    (hnone : ∀ i, j < i → i ≤ n → k (input.drop i) = none) :
    tryLengths k input n = some (input.take j ++ m, String.mk (input.take j) :: caps) := by
  induction n with
  | zero => omega
  | succ n ih =>
    by_cases hjn1 : j = n + 1
    · subst hjn1
      simp [tryLengths, hk]
    · have hlt : j < n + 1 := by omega
      have hn : k (input.drop (n + 1)) = none := hnone (n + 1) hlt (le_refl _)
      simp only [tryLengths, hn]
      exact ih (by omega) (fun i h1 h2 => hnone i h1 (by omega))

theorem takeWhile_singleLine (l : List Char) (h : ∀ x ∈ l, isLineTerminator x = false) :
    l.takeWhile (fun c => !isLineTerminator c) = l := by
  rw [List.takeWhile_eq_self_iff]
  intro x hx
  simp [h x hx]

theorem matchFrom_group_end (C : List Char) (hC : C ≠ [])
    (hCl : ∀ x ∈ C, isLineTerminator x = false) :
    matchFrom [RegexItem.dotPlusGroup] C = some (C, [String.mk C]) := by
  simp only [matchFrom, takeWhile_singleLine C hCl]
  have hpos : 1 ≤ C.length := by
    cases C with
    | nil => exact absurd rfl hC
    | cons _ _ => simp
  have := tryLengths_longest (matchFrom []) C C.length C.length [] [] hpos (le_refl _)
    (by simp [matchFrom]) (fun i h1 h2 => by omega)
  simpa using this

theorem searchFrom_of_matchFrom (pattern : List RegexItem) (input : List Char)
    (r : List Char × List String) (h : matchFrom pattern input = some r) :
    searchFrom pattern input = some r := by
  cases input with
  | nil => simpa [searchFrom] using h
  | cons c cs => simp [searchFrom, h]

theorem matchFrom_two_groups (pre sep N C : List Char) (hN : N ≠ []) (hC : C ≠ [])
    (hNl : ∀ x ∈ N, isLineTerminator x = false)
    (hCl : ∀ x ∈ C, isLineTerminator x = false)
    (hsl : ∀ x ∈ sep, isLineTerminator x = false)
    (huniq : ∀ i, beginsWithCI sep ((N ++ (sep ++ C)).drop i) = true → i = N.length) :
    matchFrom (pre.map RegexItem.char ++
        RegexItem.dotPlusGroup :: (sep.map RegexItem.char ++ [RegexItem.dotPlusGroup]))
      (pre ++ (N ++ (sep ++ C))) =
      some (pre ++ (N ++ (sep ++ C)), [String.mk N, String.mk C]) := by
  rw [matchFrom_literal]
  have hall : ∀ x ∈ N ++ (sep ++ C), isLineTerminator x = false := by
    intro x hx
    simp only [List.mem_append] at hx
    rcases hx with h | h | h
    · exact hNl x h
    · exact hsl x h
    · exact hCl x h
  have hpos : 1 ≤ N.length := by
    cases N with
    | nil => exact absurd rfl hN
    | cons _ _ => simp
  have hk : matchFrom (sep.map RegexItem.char ++ [RegexItem.dotPlusGroup])
      ((N ++ (sep ++ C)).drop N.length) = some (sep ++ C, [String.mk C]) := by
    rw [List.drop_left, matchFrom_literal, matchFrom_group_end C hC hCl]
    rfl
  have hgroup := tryLengths_longest
    (matchFrom (sep.map RegexItem.char ++ [RegexItem.dotPlusGroup])) (N ++ (sep ++ C))
    N.length (N ++ (sep ++ C)).length (sep ++ C) [String.mk C] hpos (by simp) hk
    (fun i h1 _ => by
      cases hm : matchFrom (sep.map RegexItem.char ++ [RegexItem.dotPlusGroup])
          ((N ++ (sep ++ C)).drop i) with
      | none => rfl
      | some r =>
        have := huniq i (matchFrom_literal_begins sep _ _ r hm)
        omega)
  simp only [matchFrom, takeWhile_singleLine _ hall, hgroup, List.take_left]
  rfl

theorem includes_of_begins (kw rest : List Char) (s : String)
    (h : s.toList = kw ++ rest) (kws : String) (hk : kws.toList = kw) :
    includes s kws = true := by
  unfold includes
  rw [h, hk]
  cases hl : kw ++ rest with
  | nil =>
    have : kw = [] := (List.append_eq_nil.1 hl).1
    simp [includesChars, this]
  | cons c cs =>
    have hp : kw.isPrefixOf (c :: cs) = true := by
      rw [← hl, List.isPrefixOf_iff_prefix]
      exact List.prefix_append _ _
    simp [includesChars, hp]

theorem stringMatch_create (n c : String) (hn : n ≠ "") (hc : c ≠ "")
    (hnl : singleLine n = true) (hcl : singleLine c = true)
    (honce : (occurrencesCI " with content "
      ("create file " ++ n ++ " with content " ++ c)).length = 1) :
    stringMatch createFileRegex ("create file " ++ n ++ " with content " ++ c) =
      some ["create file " ++ n ++ " with content " ++ c, n, c] := by
  have hN : n.toList ≠ [] := fun h => hn (String.ext h)
  have hC : c.toList ≠ [] := fun h => hc (String.ext h)
  have hdata : ("create file " ++ n ++ " with content " ++ c).toList =
      "create file ".toList ++ (n.toList ++ (" with content ".toList ++ c.toList)) := by
    simp [String.toList]
  have hlen : ("create file " ++ n ++ " with content " ++ c).length =
      12 + (n.toList ++ (" with content ".toList ++ c.toList)).length := by
    show ("create file " ++ n ++ " with content " ++ c).toList.length = _
    rw [hdata, List.length_append]
    rfl
  obtain ⟨only, honly⟩ := List.length_eq_one.1 honce
  have hmem : ∀ i, i ≤ (n.toList ++ (" with content ".toList ++ c.toList)).length →
      beginsWithCI " with content ".toList
        ((n.toList ++ (" with content ".toList ++ c.toList)).drop i) = true →
      12 + i = only := by
    intro i hi hb
    have : 12 + i ∈ occurrencesCI " with content "
        ("create file " ++ n ++ " with content " ++ c) := by
      unfold occurrencesCI
      rw [List.mem_filter, List.mem_range, hlen, hdata]
      refine ⟨by omega, ?_⟩
      have hd : ("create file ".toList ++
          (n.toList ++ (" with content ".toList ++ c.toList))).drop (12 + i) =
          (n.toList ++ (" with content ".toList ++ c.toList)).drop i := by
        rw [← List.drop_drop]
        rfl
      rw [hd]
      exact hb
    rw [honly] at this
    simpa using this
  have hself := hmem n.toList.length (by simp)
    (by rw [List.drop_left]; exact beginsWithCI_self _ _)
  have huniq : ∀ i, beginsWithCI " with content ".toList
      ((n.toList ++ (" with content ".toList ++ c.toList)).drop i) = true →
      i = n.toList.length := by
    intro i hb
    by_cases hi : i ≤ (n.toList ++ (" with content ".toList ++ c.toList)).length
    · have := hmem i hi hb
      omega
    · rw [List.drop_eq_nil_of_le (by omega)] at hb
      simp [beginsWithCI, String.toList] at hb
  have hnl2 : ∀ x ∈ n.toList, isLineTerminator x = false := by
    simpa [singleLine] using hnl
  have hcl2 : ∀ x ∈ c.toList, isLineTerminator x = false := by
    simpa [singleLine] using hcl
  have hmatch := matchFrom_two_groups "create file ".toList " with content ".toList
    n.toList c.toList hN hC hnl2 hcl2 (by decide) huniq
  have hsearch := searchFrom_of_matchFrom _ _ _ hmatch
  have hre : createFileRegex = "create file ".toList.map RegexItem.char ++
      RegexItem.dotPlusGroup ::
        (" with content ".toList.map RegexItem.char ++ [RegexItem.dotPlusGroup]) := by
    simp [createFileRegex, literal]
  unfold stringMatch
  rw [hdata, hre, hsearch]
  simp only [Option.some.injEq, List.cons.injEq, and_true]
  refine ⟨?_, rfl, rfl⟩
  exact String.ext (by simp [String.toList])

/-- C7: for a working directory `wd` and non-empty single-line `n` and `c`
such that the prompt `create file n with content c` contains ` with content `
(letter case aside) exactly once, `processPrompt` performs exactly the call
`createFile(wd + "/" + n, c)` and returns its result. -/
theorem processPrompt_create (respond : Respond) (wd n c : String)
    (self : FilesystemMCPClient) (sent : List ToolCallRequest)
    (hn : n ≠ "") (hc : c ≠ "") (hnl : singleLine n) (hcl : singleLine c)
    (honce : (occurrencesCI " with content "
      ("create file " ++ n ++ " with content " ++ c)).length = 1) :
    processPrompt respond ("create file " ++ n ++ " with content " ++ c) (some wd) self sent =
      createFile respond (.string (wd ++ "/" ++ n)) (.string c) self sent := by
  have hinc : includes (toLowerCase ("create file " ++ n ++ " with content " ++ c))
      "create file" = true := by
    apply includes_of_begins "create file".toList
      (' ' :: ((n.toList ++ (" with content ".toList ++ c.toList)).map Char.toLower))
    · simp [toLowerCase, String.toList]
    · rfl
  simp [processPrompt, hinc, stringMatch_create n c hn hc hnl hcl honce, group]

/-- Witness of `processPrompt_create`: the prompt
`create file a.txt with content hello` in `./ws` is the call
`createFile("./ws/a.txt", "hello")`. -/
theorem processPrompt_create_witness :
    processPrompt (fun _ _ => .ok (textResult "done"))
        "create file a.txt with content hello" (some "./ws") connectedClient [] =
      createFile (fun _ _ => .ok (textResult "done")) (.string "./ws/a.txt")
        (.string "hello") connectedClient [] :=
  processPrompt_create (fun _ _ => .ok (textResult "done")) "./ws" "a.txt" "hello"
    connectedClient [] (by decide) (by decide) (by decide) (by decide) (by decide)

end Prompt

end McpFs
